import Mathlib

/-!
Verification of the multi-tenant bot host `app.py`: token minting/parsing,
the rotating force-subscribe (FSUB) gate, access-control list flows, the
supervisor's stop path, and the upload-session lifecycle.

Python strings that are *parsed* (tokens) are modelled as `List Char`;
strings that are only compared or stored (statuses, roles, channels) as
`String`.  SQLite tables keyed by a primary key are modelled as association
lists, with `INSERT OR REPLACE` = erase-then-append and `DELETE` = erase.
-/

namespace Fsubmul

/-- Python strings viewed character by character, for the token splitter. -/
abbrev Str := List Char

/-- The token separator used by `make_token` / `parse_token` (`"."`). -/
def sep : Char := '.'

/-- Association-list lookup: first row whose key matches, as a SQL point
read (`SELECT ... WHERE key=?` on a primary-key column). -/
def alist_lookup {K V : Type} [DecidableEq K] : List (K × V) → K → Option V
  | [], _ => none
  | p :: rest, k => if p.1 = k then some p.2 else alist_lookup rest k

/-- Association-list deletion of every row with the given key, as a SQL
`DELETE ... WHERE key=?` (primary keys make at most one row match). -/
def alist_erase {K V : Type} [DecidableEq K] : List (K × V) → K → List (K × V)
  | [], _ => []
  | p :: rest, k => if p.1 = k then alist_erase rest k else p :: alist_erase rest k

theorem alist_lookup_append {K V : Type} [DecidableEq K]
    (l₁ l₂ : List (K × V)) (k : K) :
    alist_lookup (l₁ ++ l₂) k =
      match alist_lookup l₁ k with
      | some v => some v
      | none => alist_lookup l₂ k := by
  induction l₁ with
  | nil => rfl
  | cons p rest ih =>
    by_cases h : p.1 = k <;> simp [alist_lookup, h, ih]

theorem alist_lookup_erase_self {K V : Type} [DecidableEq K]
    (l : List (K × V)) (k : K) :
    alist_lookup (alist_erase l k) k = none := by
  induction l with
  | nil => rfl
  | cons p rest ih =>
    by_cases h : p.1 = k <;> simp [alist_erase, h, alist_lookup, ih]

theorem alist_lookup_erase_ne {K V : Type} [DecidableEq K]
    (l : List (K × V)) (k k' : K) (h : k' ≠ k) :
    alist_lookup (alist_erase l k) k' = alist_lookup l k' := by
  induction l with
  | nil => rfl
  | cons p rest ih =>
    by_cases hp : p.1 = k
    · have hk : k ≠ k' := fun e => h e.symm
      simp [alist_erase, hp, alist_lookup, hk, ih]
    · by_cases hp' : p.1 = k' <;> simp [alist_erase, hp, alist_lookup, hp', h, ih]

theorem alist_erase_append {K V : Type} [DecidableEq K]
    (l₁ l₂ : List (K × V)) (k : K) :
    alist_erase (l₁ ++ l₂) k = alist_erase l₁ k ++ alist_erase l₂ k := by
  induction l₁ with
  | nil => rfl
  | cons p rest ih =>
    by_cases h : p.1 = k <;> simp [alist_erase, h, ih]

theorem alist_erase_erase {K V : Type} [DecidableEq K]
    (l : List (K × V)) (k : K) :
    alist_erase (alist_erase l k) k = alist_erase l k := by
  induction l with
  | nil => rfl
  | cons p rest ih =>
    by_cases h : p.1 = k <;> simp [alist_erase, h, ih]

/-! ## TokenStore: `make_token` / `parse_token` (app.py 483-492) -/

/-- `make_token`: `f"{bot_key}.{secrets.token_urlsafe(12)}"`, with the
random url-safe suffix passed in as a parameter. -/
def make_token (bot_key suffix : Str) : Str :=
  bot_key ++ [sep] ++ suffix

/-- Python `token.split(sep, 1)` when the separator occurs: returns the part
before the first occurrence and everything after it; `none` when the
separator does not occur. -/
def split_first (c : Char) : Str → Option (Str × Str)
  | [] => none
  | a :: rest =>
    if a = c then some ([], rest)
    else
      match split_first c rest with
      | some (pre, post) => some (a :: pre, post)
      | none => none

/-- `parse_token` (app.py 487-492): if `"." in token`, split on the first
dot; when both sides are nonempty return them, otherwise (and when there is
no dot) return an empty namespace and the original string. -/
def parse_token (token : Str) : Str × Str :=
  if sep ∈ token then
    match split_first sep token with
    | some (bk, rest) => if bk ≠ [] ∧ rest ≠ [] then (bk, rest) else ([], token)
    | none => ([], token)
  else ([], token)

/-- `use_key = bk or bot_key` in `start_cmd` (app.py 934): an empty parsed
namespace is falsy, so the current bot's key is used. -/
def start_use_key (bk bot_key : Str) : Str :=
  if bk = [] then bot_key else bk

theorem split_first_not_mem (c : Char) (t : Str) (h : c ∉ t) :
    split_first c t = none := by
  induction t with
  | nil => rfl
  | cons a rest ih =>
    have ha : ¬ a = c := fun e => h (e ▸ List.mem_cons_self a rest)
    have hr : c ∉ rest := fun m => h (List.mem_cons_of_mem a m)
    simp [split_first, ha, ih hr]

theorem split_first_append (c : Char) (a b : Str) (h : c ∉ a) :
    split_first c (a ++ c :: b) = some (a, b) := by
  induction a with
  | nil => simp [split_first]
  | cons x rest ih =>
    have hx : ¬ x = c := fun e => h (e ▸ List.mem_cons_self x rest)
    have hr : c ∉ rest := fun m => h (List.mem_cons_of_mem x m)
    simp [split_first, hx, ih hr]

/-! ## GateEngine: join check, show-N config, rotation, display subset
(app.py 476-480, 350-355, 537-550, 575-609) -/

/-- `is_user_joined_all` (app.py 537-550): iterate over the **full**
required-channel list of the bot; a membership query either raises
(`member ch = none`) or returns a status string.  Status `"left"` or
`"kicked"`, or any raised query, makes the whole check `false`; an empty
list (and only then, fewer queries) yields `true` immediately. -/
def is_user_joined_all (fsubs : List String) (member : String → Option String) : Bool :=
  fsubs.all fun ch =>
    match member ch with
    | none => false
    | some status => !(status == "left" || status == "kicked")

/-- `get_fsub_show_n` (app.py 476-480): the per-bot `fsub_show_n` config
value (a digit string, modelled parsed) clamped to `[1, 20]`; when unset,
the env fallback clamped the same way. -/
def get_fsub_show_n (cfg : Option Nat) (fallback : Nat) : Nat :=
  match cfg with
  | some v => max 1 (min v 20)
  | none => max 1 (min fallback 20)

/-- `db_step_fsub_offset` (app.py 350-355): read the stored offset
(default 0), add `step`, reduce mod `max total 1`, persist and return. -/
def db_step_fsub_offset (cur step total : Nat) : Nat :=
  (cur + step) % max total 1

/-- `m` successive calls to the rotate step (`fsub_rotate_cb` /
`fsub_check_cb` both call `db_step_fsub_offset` with `step = show_n` and
`total = len(fsubs)`), starting from stored offset `init`. -/
def rotate_iter (init k n : Nat) : Nat → Nat
  | 0 => init
  | m + 1 => db_step_fsub_offset (rotate_iter init k n m) k n

/-- The `subset` displayed by `build_fsub_keyboard` (app.py 575-588):
empty list when no required channels; otherwise Python slicing
`(fsubs[offset:] + fsubs[:offset])[:max(1, min(show_n, n))]`. -/
def build_fsub_subset (fsubs : List String) (show_n offset : Nat) : List String :=
  if fsubs = [] then []
  else
    let n := fsubs.length
    let k := max 1 (min show_n n)
    let rotated := fsubs.drop offset ++ fsubs.take offset
    rotated.take k

/-! ## GateState invariant material (C8): the channel list and one stored
offset, with the operations that touch either (app.py 384-394, 350-355,
1007-1029) -/

/-- One bot's required-channel list together with one persisted
`fsub_state` offset row. -/
structure GateView where
  channels : List String
  offset : Nat
  deriving DecidableEq, Repr

/-- The rotate step as performed by `fsub_rotate_cb` / `fsub_check_cb`:
`db_step_fsub_offset(..., step=show_n, total=len(fsubs))`. -/
def rotate_step (s : GateView) (show_n : Nat) : GateView :=
  { s with offset := db_step_fsub_offset s.offset show_n s.channels.length }

/-- `db_fsub_add` (app.py 384-386): `INSERT OR IGNORE`, ordered by
`created_at ASC`, so a new channel is appended and a duplicate ignored.
Stored offsets are not touched. -/
def fsub_add_op (s : GateView) (ch : String) : GateView :=
  { s with channels := if ch ∈ s.channels then s.channels else s.channels ++ [ch] }

/-- Channel deletion used by `db_fsub_del` (app.py 389-390): remove the
row for that channel.  Stored offsets are not touched. -/
def erase_channel : List String → String → List String
  | [], _ => []
  | c :: rest, ch => if c = ch then erase_channel rest ch else c :: erase_channel rest ch

/-- `db_fsub_del` lifted to a `GateView`. -/
def fsub_del_op (s : GateView) (ch : String) : GateView :=
  { s with channels := erase_channel s.channels ch }

/-- `db_fsub_clear` (app.py 393-394) lifted to a `GateView`. -/
def fsub_clear_op (s : GateView) : GateView :=
  { s with channels := [] }

/-! ## Supervisor: `BotManager.stop_client` (app.py 878-895) -/

/-- Which of the three teardown awaits raise, for fault injection. -/
structure TeardownFlags where
  updaterStopFails : Bool
  stopFails : Bool
  shutdownFails : Bool
  deriving DecidableEq, Repr

/-- Whether a step ran to completion or raised. -/
inductive StepOutcome
  | ok
  | raised
  deriving DecidableEq, Repr

/-- Run one teardown step: it is appended to the execution trace either
way, and reports whether it raised.  `stop_client` wraps each step in
`try ... except Exception: pass`, i.e. it discards this outcome. -/
def attemptStep (trace : List String) (name : String) (fails : Bool) :
    List String × StepOutcome :=
  (trace ++ [name], if fails then .raised else .ok)

/-- `BotManager.stop_client` (app.py 878-895): look up the app under the
lock; absent means return immediately.  Otherwise run
`updater.stop`, `app.stop`, `app.shutdown`, each inside
`try/except pass` (outcome discarded), then `self.apps.pop(key, None)`.
Returns the new active map and the trace of steps that executed. -/
def stop_client {W : Type} (apps : List (String × W)) (key : String)
    (flags : TeardownFlags) : List (String × W) × List String :=
  match alist_lookup apps key with
  | none => (apps, [])
  | some _ =>
    let (t1, _) := attemptStep [] "updater.stop" flags.updaterStopFails
    let (t2, _) := attemptStep t1 "app.stop" flags.stopFails
    let (t3, _) := attemptStep t2 "app.shutdown" flags.shutdownFails
    (alist_erase apps key, t3)

/-! ## AccessControl: `db_access_*` and the admin input flows
(app.py 280-292, 1451-1473, 1526-1560) -/

/-- `db_access_add` (app.py 280-284): `INSERT OR REPLACE` on primary key
`(bot_key, user_id)` — the conflicting row is dropped and the new row
inserted (it sorts last under `ORDER BY created_at ASC`). -/
def db_access_add (acl : List (Nat × String)) (uid : Nat) (role : String) :
    List (Nat × String) :=
  alist_erase acl uid ++ [(uid, role)]

/-- `db_access_del` (app.py 287-288). -/
def db_access_del (acl : List (Nat × String)) (uid : Nat) : List (Nat × String) :=
  alist_erase acl uid

/-- `db_access_clear` (app.py 291-292): delete every row of the bot. -/
def db_access_clear (_acl : List (Nat × String)) : List (Nat × String) :=
  []

/-- The role chosen by the `access_add` branch of `admin_input_handler`
(app.py 1535-1541): `"admin"`, unless the user already holds `"owner"`,
which is kept. -/
def access_add_role (acl : List (Nat × String)) (uid : Nat) : String :=
  match alist_lookup acl uid with
  | some r => if r = "owner" then "owner" else "admin"
  | none => "admin"

/-- One id of the client AKSES add flow (app.py 1535-1542). -/
def access_add_step (acl : List (Nat × String)) (uid : Nat) : List (Nat × String) :=
  db_access_add acl uid (access_add_role acl uid)

/-- The whole AKSES add flow over the parsed id list. -/
def access_add_flow (acl : List (Nat × String)) (ids : List Nat) : List (Nat × String) :=
  ids.foldl access_add_step acl

/-- The manager's `bot_add_acl` step (app.py 1466-1467): every id is
written with role `"admin"`, with no owner check. -/
def bot_add_acl_flow (acl : List (Nat × String)) (ids : List Nat) : List (Nat × String) :=
  ids.foldl (fun a uid => db_access_add a uid "admin") acl

/-- Outcome of the `access_del` branch of `admin_input_handler`. -/
inductive AccessDelOutcome
  | ownerBlocked
  | removed
  deriving DecidableEq, Repr

/-- The `access_del` branch (app.py 1548-1560): look up the target's role;
`"owner"` is refused ("Owner tidak bisa dihapus ... (Safety)") leaving the
ACL unchanged; otherwise `db_access_del` runs. -/
def access_del_flow (acl : List (Nat × String)) (uid : Nat) :
    List (Nat × String) × AccessDelOutcome :=
  match alist_lookup acl uid with
  | some r => if r = "owner" then (acl, .ownerBlocked) else (db_access_del acl uid, .removed)
  | none => (db_access_del acl uid, .removed)

/-! ## Upload sessions: `post_select_cb` (app.py 1074-1167) -/

/-- One `uploads` row: uploader id and thumbnail file id. -/
structure UploadRow where
  uploaderId : Nat
  thumb : String
  deriving DecidableEq, Repr

/-- Outcome of the single-target `post:` branch. -/
inductive PostOutcome
  | noSession
  | notAllowed
  | badIndex
  | sendFailed
  | posted
  deriving DecidableEq, Repr

/-- Outcome of the `cancel:` branch. -/
inductive CancelOutcome
  | noSession
  | notAllowed
  | canceled
  deriving DecidableEq, Repr

/-- The `post:` branch of `post_select_cb` (app.py 1100-1133): missing
session → message, state unchanged; non-uploader without manage rights →
alert, state unchanged; index out of `1..len(post_channels)` → message,
state unchanged; send raising → failure message and **no deletion**;
only a successful send reaches `db_del_upload`. -/
def post_branch (uploads : List (String × UploadRow)) (token : String)
    (caller : Nat) (canManage : Bool) (numChannels : Nat) (idx : Int)
    (sendOk : Bool) : List (String × UploadRow) × PostOutcome :=
  match alist_lookup uploads token with
  | none => (uploads, .noSession)
  | some up =>
    if caller ≠ up.uploaderId ∧ ¬canManage then (uploads, .notAllowed)
    else if idx < 1 ∨ idx > (numChannels : Int) then (uploads, .badIndex)
    else if sendOk then (alist_erase uploads token, .posted)
    else (uploads, .sendFailed)

/-- The `cancel:` branch of `post_select_cb` (app.py 1085-1098): after the
session and authorization checks, `db_del_upload` runs unconditionally. -/
def cancel_branch (uploads : List (String × UploadRow)) (token : String)
    (caller : Nat) (canManage : Bool) : List (String × UploadRow) × CancelOutcome :=
  match alist_lookup uploads token with
  | none => (uploads, .noSession)
  | some up =>
    if caller ≠ up.uploaderId ∧ ¬canManage then (uploads, .notAllowed)
    else (alist_erase uploads token, .canceled)

/-- The `postall:` branch (app.py 1135-1167): sends to every target,
counting successes and collecting failures, then `db_del_upload` runs
regardless of the per-target results.  `sendResults` is the success flag
of each target's send. -/
def postall_branch (uploads : List (String × UploadRow)) (token : String)
    (caller : Nat) (canManage : Bool) (sendResults : List Bool) :
    List (String × UploadRow) × Option (Nat × Nat) :=
  match alist_lookup uploads token with
  | none => (uploads, none)
  | some up =>
    if caller ≠ up.uploaderId ∧ ¬canManage then (uploads, none)
    else
      let ok := (sendResults.filter id).length
      let failed := (sendResults.filter (fun b => !b)).length
      (alist_erase uploads token, some (ok, failed))

/-! ## Claim theorems -/

/-- Claim C1: `is_user_joined_all` evaluates membership against the full
required-channel list `fsubs` it is given (the display window never enters
the function): it returns `true` iff the list is empty or every channel's
membership query returns a status other than `"left"`/`"kicked"`; any
`"left"`/`"kicked"` status or raised query (`member ch = none`) makes it
return `false`, fail-closed. -/
theorem is_user_joined_all_full_set (fsubs : List String) (member : String → Option String) :
    is_user_joined_all fsubs member = true ↔
      (fsubs = [] ∨
        ∀ ch ∈ fsubs, ∃ s, member ch = some s ∧ s ≠ "left" ∧ s ≠ "kicked") := by
  have point : ∀ ch : String,
      ((match member ch with
        | none => false
        | some status => !(status == "left" || status == "kicked")) = true ↔
        ∃ s, member ch = some s ∧ s ≠ "left" ∧ s ≠ "kicked") := by
    intro ch
    cases hm : member ch with
    | none => simp
    | some s =>
      constructor
      · intro h
        refine ⟨s, rfl, ?_, ?_⟩ <;>
        · intro he
          rw [he] at h
          simp at h
      · rintro ⟨s', hs', h1, h2⟩
        have hss : s = s' := Option.some_inj.mp hs'
        subst hss
        simp [h1, h2]
  constructor
  · intro h
    right
    intro ch hch
    exact (point ch).mp ((List.all_eq_true.mp h) ch hch)
  · intro h
    rcases h with he | hall
    · subst he; rfl
    · exact List.all_eq_true.mpr fun ch hch => (point ch).mpr (hall ch hch)

/-- Witness for C1: an empty required set passes every user; a single
channel whose membership query raises fails closed. -/
theorem is_user_joined_all_full_set_witness :
    is_user_joined_all [] (fun _ => none) = true ∧
    is_user_joined_all ["c1"] (fun _ => none) = false := by
  constructor
  · exact (is_user_joined_all_full_set [] (fun _ => none)).mpr (Or.inl rfl)
  · by_contra hne
    have hb : is_user_joined_all ["c1"] (fun _ => none) = true := by
      revert hne
      cases is_user_joined_all ["c1"] (fun _ => none) <;> simp
    rcases (is_user_joined_all_full_set ["c1"] (fun _ => none)).mp hb with he | hall
    · exact List.cons_ne_nil _ _ he
    · rcases hall "c1" (by simp) with ⟨s, hs, _⟩
      exact Option.noConfusion hs

/-- Claim C2: for a bot key `K` (nonempty, dot-free, as a platform-derived
username is) and the nonempty url-safe suffix produced at mint time,
`parse_token (make_token K suffix) = (K, suffix)`, and the minted token is
exactly `K ++ "." ++ suffix`. -/
theorem make_parse_roundtrip (K suffix : Str)
    (hK : K ≠ []) (hs : suffix ≠ []) (hsep : sep ∉ K) :
    parse_token (make_token K suffix) = (K, suffix) ∧
    make_token K suffix = K ++ [sep] ++ suffix := by
  refine ⟨?_, rfl⟩
  have heq : make_token K suffix = K ++ sep :: suffix := by
    simp [make_token]
  have hmem : sep ∈ make_token K suffix := by
    rw [heq]
    exact List.mem_append_right _ (List.mem_cons_self _ _)
  have hsplit : split_first sep (make_token K suffix) = some (K, suffix) := by
    rw [heq]
    exact split_first_append sep K suffix hsep
  simp [parse_token, hmem, hsplit, hK, hs]

/-- Witness for C2: the spec's own scenario, `mint("alpha") = "alpha.xYz123"`
parsing back to `("alpha", "xYz123")`. -/
theorem make_parse_roundtrip_witness :
    parse_token (make_token ['a', 'l', 'p', 'h', 'a'] ['x', 'Y', 'z', '1', '2', '3']) =
      (['a', 'l', 'p', 'h', 'a'], ['x', 'Y', 'z', '1', '2', '3']) :=
  (make_parse_roundtrip ['a', 'l', 'p', 'h', 'a'] ['x', 'Y', 'z', '1', '2', '3']
    (by decide) (by decide) (by decide)).1

/-- Claim C9: `parse_token` splits on the first separator only (the suffix
may contain further dots); with no separator, or an empty side at the first
separator, it returns an empty namespace and the original string; and
`start_cmd`'s `use_key = bk or bot_key` then defaults the empty namespace
to the current bot's key. -/
theorem parse_token_default_spec :
    (∀ a b : Str, sep ∉ a → a ≠ [] → b ≠ [] → parse_token (a ++ sep :: b) = (a, b)) ∧
    (∀ t : Str, sep ∉ t → parse_token t = ([], t)) ∧
    (∀ b : Str, parse_token (sep :: b) = ([], sep :: b)) ∧
    (∀ a : Str, sep ∉ a → parse_token (a ++ [sep]) = ([], a ++ [sep])) ∧
    (∀ t bot_key : Str, (parse_token t).1 = [] →
      start_use_key (parse_token t).1 bot_key = bot_key) := by
  refine ⟨?_, ?_, ?_, ?_, ?_⟩
  · intro a b hsep ha hb
    have hmem : sep ∈ a ++ sep :: b := List.mem_append_right _ (List.mem_cons_self _ _)
    have hsplit := split_first_append sep a b hsep
    simp [parse_token, hmem, hsplit, ha, hb]
  · intro t h
    simp [parse_token, h]
  · intro b
    have hmem : sep ∈ sep :: b := List.mem_cons_self _ _
    have hsplit : split_first sep (sep :: b) = some ([], b) := by
      simp [split_first]
    simp [parse_token, hmem, hsplit]
  · intro a h
    have hmem : sep ∈ a ++ [sep] := List.mem_append_right _ (List.mem_cons_self _ _)
    have hsplit := split_first_append sep a [] h
    simp only [parse_token, hmem, if_true, hsplit]
    simp
  · intro t bot_key h
    rw [start_use_key, if_pos h]

/-- Witness for C9: a dot-free token parses to an empty namespace and is
then attributed to the current bot. -/
theorem parse_token_default_spec_witness :
    parse_token ['t', 'o', 'k'] = ([], ['t', 'o', 'k']) ∧
    start_use_key (parse_token ['t', 'o', 'k']).1 ['b', 'o', 't'] = ['b', 'o', 't'] :=
  have h1 := parse_token_default_spec.2.1 ['t', 'o', 'k'] (by decide)
  ⟨h1, parse_token_default_spec.2.2.2.2 ['t', 'o', 'k'] ['b', 'o', 't'] (by rw [h1])⟩

/-- Counterexample for C3 as stated: with 3 required channels and a
configured show count of 4 (the env default), the rotate step adds the
full `get_fsub_show_n` value 4, not the window size `clamp(4, 1, 3) = 3`:
one call from stored offset 0 yields `4 % 3 = 1`, while the claim's
formula yields `(0 + 3) % 3 = 0`. -/
theorem rotate_step_uses_unclamped_window :
    db_step_fsub_offset 0 (get_fsub_show_n (some 4) 4) 3 ≠
      (0 + max 1 (min (get_fsub_show_n (some 4) 4) 3)) % 3 := by
  decide

/-- Claim C3 (amended): the rotate step adds `k = get_fsub_show_n` (the
configured show count clamped to `[1, 20]`, not further clamped by the
channel count), so one call sets the offset to `(stored + k) mod max(n,1)`
and, for `n > 0` and a stored offset in range, `m` calls yield
`(initial + m·k) mod n`. -/
theorem rotate_iter_offset (init k n m : Nat) (hn : 0 < n) (hinit : init < n) :
    rotate_iter init k n m = (init + m * k) % n := by
  induction m with
  | zero =>
    simp [rotate_iter, Nat.mod_eq_of_lt hinit]
  | succ m ih =>
    have hmax : max n 1 = n := Nat.max_eq_left hn
    show (rotate_iter init k n m + k) % max n 1 = (init + (m + 1) * k) % n
    rw [hmax, ih, Nat.mod_add_mod, Nat.succ_mul, ← Nat.add_assoc]

/-- Witness for C3 (amended): two rotate calls with window 4 over 3
channels move the offset from 0 to `8 % 3 = 2`. -/
theorem rotate_iter_offset_witness :
    0 < 3 ∧ 0 < 3 ∧ rotate_iter 0 4 3 2 = (0 + 2 * 4) % 3 :=
  ⟨by decide, by decide, rotate_iter_offset 0 4 3 2 (by decide) (by decide)⟩

/-- Claim C6: with no required channels the displayed subset is empty;
otherwise, for a stored offset inside `[0, n)` (the GateState data-model
range), the subset equals the first `min(showN, n)` elements of the
channel list rotated left by the offset, and has exactly that length. -/
theorem build_fsub_subset_spec (fsubs : List String) (cfg : Option Nat) (fb offset : Nat) :
    build_fsub_subset [] (get_fsub_show_n cfg fb) offset = [] ∧
    (offset < fsubs.length →
      build_fsub_subset fsubs (get_fsub_show_n cfg fb) offset =
        (fsubs.rotate offset).take (min (get_fsub_show_n cfg fb) fsubs.length) ∧
      (build_fsub_subset fsubs (get_fsub_show_n cfg fb) offset).length =
        min (get_fsub_show_n cfg fb) fsubs.length) := by
  constructor
  · simp [build_fsub_subset]
  · intro hoff
    have hne : fsubs ≠ [] := by
      intro he
      rw [he] at hoff
      exact Nat.not_lt_zero _ hoff
    have hshow : 1 ≤ get_fsub_show_n cfg fb := by
      cases cfg <;> exact Nat.le_max_left 1 _
    have hn1 : 1 ≤ fsubs.length := Nat.lt_of_le_of_lt (Nat.zero_le _) hoff
    have hk : max 1 (min (get_fsub_show_n cfg fb) fsubs.length) =
        min (get_fsub_show_n cfg fb) fsubs.length :=
      Nat.max_eq_right (Nat.le_min.mpr ⟨hshow, hn1⟩)
    have hrot : fsubs.rotate offset = fsubs.drop offset ++ fsubs.take offset :=
      List.rotate_eq_drop_append_take (Nat.le_of_lt hoff)
    have hbuild : build_fsub_subset fsubs (get_fsub_show_n cfg fb) offset =
        (fsubs.drop offset ++ fsubs.take offset).take
          (min (get_fsub_show_n cfg fb) fsubs.length) := by
      simp only [build_fsub_subset, if_neg hne, hk]
    refine ⟨by rw [hbuild, hrot], ?_⟩
    rw [hbuild]
    have hlen : (fsubs.drop offset ++ fsubs.take offset).length = fsubs.length := by
      rw [List.length_append, List.length_drop, List.length_take,
        Nat.min_eq_left (Nat.le_of_lt hoff)]
      omega
    rw [List.length_take, hlen]
    exact Nat.min_eq_left (Nat.min_le_right _ _)

/-- Witness for C6: the spec scenario `R = [c1,c2,c3]`, show count 2,
offset 2 after one rotate, displaying `[c3, c1]`. -/
theorem build_fsub_subset_spec_witness :
    2 < (["c1", "c2", "c3"] : List String).length ∧
    build_fsub_subset ["c1", "c2", "c3"] (get_fsub_show_n (some 2) 4) 2 =
      ((["c1", "c2", "c3"] : List String).rotate 2).take
        (min (get_fsub_show_n (some 2) 4) (["c1", "c2", "c3"] : List String).length) :=
  ⟨by decide,
    ((build_fsub_subset_spec ["c1", "c2", "c3"] (some 2) 4 2).2 (by decide)).1⟩

/-- Counterexample for C8 as stated: a rotate step over 3 channels with
show count 2 stores offset 2 (in range), but deleting one required channel
leaves the stored offset at 2 with only 2 channels left, outside
`[0, n)` — the invariant is not preserved by channel removal. -/
theorem offset_invariant_broken_by_channel_del :
    (rotate_step ⟨["a", "b", "c"], 0⟩ (get_fsub_show_n (some 2) 4)).offset <
      (rotate_step ⟨["a", "b", "c"], 0⟩ (get_fsub_show_n (some 2) 4)).channels.length ∧
    ¬ ((fsub_del_op (rotate_step ⟨["a", "b", "c"], 0⟩ (get_fsub_show_n (some 2) 4)) "a").offset <
        (fsub_del_op (rotate_step ⟨["a", "b", "c"], 0⟩ (get_fsub_show_n (some 2) 4)) "a").channels.length) := by
  decide

/-- Claim C8 (amended): each rotate step writes an offset in
`[0, max(n,1))` for the channel count `n` at step time (so in `[0, n)`
whenever `n > 0`), and channel **add** preserves the range; channel
remove and clear leave the stored offset untouched, so removal can leave
it at or above the new count. -/
theorem offset_invariant_step_add (s : GateView) (k : Nat) (ch : String) :
    (0 < s.channels.length →
      (rotate_step s k).offset < (rotate_step s k).channels.length) ∧
    (s.offset < s.channels.length →
      (fsub_add_op s ch).offset < (fsub_add_op s ch).channels.length) ∧
    (fsub_del_op s ch).offset = s.offset ∧
    (fsub_clear_op s).offset = s.offset := by
  refine ⟨?_, ?_, rfl, rfl⟩
  · intro hn
    have hmax : max s.channels.length 1 = s.channels.length := Nat.max_eq_left hn
    have hpos : 0 < max s.channels.length 1 :=
      Nat.lt_of_lt_of_le Nat.one_pos (Nat.le_max_right _ _)
    have := Nat.mod_lt (s.offset + k) hpos
    simpa [rotate_step, db_step_fsub_offset, hmax] using this
  · intro h
    by_cases hm : ch ∈ s.channels
    · simpa [fsub_add_op, hm] using h
    · simp only [fsub_add_op, if_neg hm]
      rw [List.length_append]
      omega

/-- Witness for C8 (amended): one rotate step over a single channel with
window 4 leaves the offset at `4 % 1 = 0 < 1`. -/
theorem offset_invariant_step_add_witness :
    0 < (GateView.mk ["a"] 0).channels.length ∧
    (rotate_step ⟨["a"], 0⟩ 4).offset < (rotate_step ⟨["a"], 0⟩ 4).channels.length :=
  ⟨by decide, (offset_invariant_step_add ⟨["a"], 0⟩ 4 "b").1 (by decide)⟩

/-- Claim C4: `stop_client` is a no-op when the key has no active app;
otherwise all three teardown steps execute whatever subset of them raises
(each failure is caught and ignored), the key leaves the active map
unconditionally, and every other key's entry is untouched. -/
theorem stop_client_spec {W : Type} (apps : List (String × W)) (key : String)
    (flags : TeardownFlags) :
    (alist_lookup apps key = none → stop_client apps key flags = (apps, [])) ∧
    (∀ w, alist_lookup apps key = some w →
      (stop_client apps key flags).2 = ["updater.stop", "app.stop", "app.shutdown"] ∧
      alist_lookup (stop_client apps key flags).1 key = none ∧
      ∀ k, k ≠ key → alist_lookup (stop_client apps key flags).1 k = alist_lookup apps k) := by
  constructor
  · intro h
    simp [stop_client, h]
  · intro w h
    have hred : stop_client apps key flags =
        (alist_erase apps key, ["updater.stop", "app.stop", "app.shutdown"]) := by
      simp [stop_client, h, attemptStep]
    refine ⟨by rw [hred], by rw [hred]; exact alist_lookup_erase_self apps key, ?_⟩
    intro k hk
    rw [hred]
    exact alist_lookup_erase_ne apps key k hk

/-- Witness for C4: with every teardown step failing, stopping a present
key still runs all three steps, removes that key and keeps the other. -/
theorem stop_client_spec_witness :
    alist_lookup [("alpha", (1 : Nat)), ("beta", 2)] "alpha" = some 1 ∧
    (stop_client [("alpha", (1 : Nat)), ("beta", 2)] "alpha" ⟨true, true, true⟩).2 =
      ["updater.stop", "app.stop", "app.shutdown"] ∧
    alist_lookup (stop_client [("alpha", (1 : Nat)), ("beta", 2)] "alpha"
      ⟨true, true, true⟩).1 "alpha" = none ∧
    alist_lookup (stop_client [("alpha", (1 : Nat)), ("beta", 2)] "alpha"
      ⟨true, true, true⟩).1 "beta" = alist_lookup [("alpha", (1 : Nat)), ("beta", 2)] "beta" :=
  have h : alist_lookup [("alpha", (1 : Nat)), ("beta", 2)] "alpha" = some 1 := by
    simp [alist_lookup]
  have hs := (stop_client_spec [("alpha", (1 : Nat)), ("beta", 2)] "alpha"
    ⟨true, true, true⟩).2 1 h
  ⟨h, hs.1, hs.2.1, hs.2.2 "beta" (by simp)⟩

/-- Lookup after `INSERT OR REPLACE` finds the new role. -/
theorem alist_lookup_add_self (acl : List (Nat × String)) (uid : Nat) (role : String) :
    alist_lookup (db_access_add acl uid role) uid = some role := by
  unfold db_access_add
  rw [alist_lookup_append, alist_lookup_erase_self]
  simp [alist_lookup]

/-- `INSERT OR REPLACE` twice with the same row equals once. -/
theorem db_access_add_idem (acl : List (Nat × String)) (uid : Nat) (role : String) :
    db_access_add (db_access_add acl uid role) uid role = db_access_add acl uid role := by
  unfold db_access_add
  rw [alist_erase_append, alist_erase_erase]
  simp [alist_erase]

/-- Counterexample for C5 as stated: user 42 holds role `"owner"`; the
manager's `bot_add_acl` step re-adding id 42 writes role `"admin"`
unconditionally, downgrading the owner entry. -/
theorem bot_add_acl_downgrades_owner :
    alist_lookup (bot_add_acl_flow [(42, "owner")] [42]) 42 ≠ some "owner" ∧
    alist_lookup (bot_add_acl_flow [(42, "owner")] [42]) 42 = some "admin" := by
  constructor <;> decide

/-- Claim C5 (amended): in the client AKSES add flow re-adding a user is
idempotent and preserves an existing `"owner"` role (anyone else gets
`"admin"`); the manager's `bot_add_acl` step instead writes `"admin"`
unconditionally (idempotently), so it does not preserve `"owner"`. -/
theorem access_add_flows_spec (acl : List (Nat × String)) (uid : Nat) :
    (alist_lookup acl uid = some "owner" →
      alist_lookup (access_add_step acl uid) uid = some "owner") ∧
    (alist_lookup acl uid ≠ some "owner" →
      alist_lookup (access_add_step acl uid) uid = some "admin") ∧
    access_add_step (access_add_step acl uid) uid = access_add_step acl uid ∧
    alist_lookup (db_access_add acl uid "admin") uid = some "admin" ∧
    db_access_add (db_access_add acl uid "admin") uid "admin" = db_access_add acl uid "admin" := by
  have hrole_owner : alist_lookup acl uid = some "owner" → access_add_role acl uid = "owner" := by
    intro h
    simp [access_add_role, h]
  have hrole_admin : alist_lookup acl uid ≠ some "owner" → access_add_role acl uid = "admin" := by
    intro h
    unfold access_add_role
    cases hm : alist_lookup acl uid with
    | none => rfl
    | some r =>
      have hr : r ≠ "owner" := by
        intro he
        exact h (he ▸ hm)
      simp [hr]
  refine ⟨?_, ?_, ?_, alist_lookup_add_self acl uid "admin", db_access_add_idem acl uid "admin"⟩
  · intro h
    rw [access_add_step, hrole_owner h]
    exact alist_lookup_add_self acl uid "owner"
  · intro h
    rw [access_add_step, hrole_admin h]
    exact alist_lookup_add_self acl uid "admin"
  · have hself : alist_lookup (access_add_step acl uid) uid = some (access_add_role acl uid) :=
      alist_lookup_add_self acl uid (access_add_role acl uid)
    have hrole2 : access_add_role (access_add_step acl uid) uid = access_add_role acl uid := by
      rw [access_add_role, hself]
      unfold access_add_role
      cases hm : alist_lookup acl uid with
      | none => rfl
      | some r =>
        by_cases hr : r = "owner" <;> simp [hr]
    rw [access_add_step, hrole2]
    show db_access_add (db_access_add acl uid (access_add_role acl uid)) uid
      (access_add_role acl uid) = db_access_add acl uid (access_add_role acl uid)
    exact db_access_add_idem acl uid (access_add_role acl uid)

/-- Witness for C5 (amended): re-adding owner 7 through the AKSES flow
keeps role `"owner"`; adding non-owner 8 yields `"admin"`. -/
theorem access_add_flows_spec_witness :
    alist_lookup [(7, "owner")] 7 = some "owner" ∧
    alist_lookup (access_add_step [(7, "owner")] 7) 7 = some "owner" ∧
    alist_lookup [(7, "owner")] 8 ≠ some "owner" ∧
    alist_lookup (access_add_step [(7, "owner")] 8) 8 = some "admin" :=
  have h7 : alist_lookup [(7, "owner")] 7 = some "owner" := by decide
  have h8 : alist_lookup [(7, "owner")] 8 ≠ some "owner" := by decide
  ⟨h7, (access_add_flows_spec [(7, "owner")] 7).1 h7, h8,
    (access_add_flows_spec [(7, "owner")] 8).2.1 h8⟩

/-- Claim C7: the single-entry removal flow refuses to delete a user whose
role is `"owner"` and leaves the ACL unchanged, while `db_access_clear`
drops every entry of the bot — the owner's included — with no protection. -/
theorem access_del_and_clear_spec (acl : List (Nat × String)) (uid target : Nat) :
    (alist_lookup acl uid = some "owner" →
      access_del_flow acl uid = (acl, AccessDelOutcome.ownerBlocked)) ∧
    db_access_clear acl = [] ∧
    alist_lookup (db_access_clear acl) target = none := by
  refine ⟨?_, rfl, rfl⟩
  intro h
  simp [access_del_flow, h]

/-- Witness for C7: removing owner 7 is blocked with the ACL intact;
clearing the same ACL erases the owner entry too. -/
theorem access_del_and_clear_spec_witness :
    alist_lookup [(7, "owner"), (8, "admin")] 7 = some "owner" ∧
    access_del_flow [(7, "owner"), (8, "admin")] 7 =
      ([(7, "owner"), (8, "admin")], AccessDelOutcome.ownerBlocked) ∧
    alist_lookup (db_access_clear [(7, "owner"), (8, "admin")]) 7 = none :=
  have h : alist_lookup [(7, "owner"), (8, "admin")] 7 = some "owner" := by decide
  have hs := access_del_and_clear_spec [(7, "owner"), (8, "admin")] 7 7
  ⟨h, hs.1 h, hs.2.2⟩

/-- Claim C10: with a live session and an authorized caller, the
single-target `post:` branch with a valid index leaves the session
retrievable and reports the failure when the send raises, and deletes the
session only when the send succeeds; `cancel:` and `postall:` delete the
session regardless (for `postall:`, whatever the per-target results). -/
theorem post_session_lifecycle (uploads : List (String × UploadRow)) (token : String)
    (caller : Nat) (canManage : Bool) (numChannels : Nat) (idx : Int)
    (sendResults : List Bool) (up : UploadRow)
    (hses : alist_lookup uploads token = some up)
    (hauth : caller = up.uploaderId ∨ canManage = true)
    (hidx1 : 1 ≤ idx) (hidx2 : idx ≤ (numChannels : Int)) :
    post_branch uploads token caller canManage numChannels idx false =
      (uploads, PostOutcome.sendFailed) ∧
    alist_lookup (post_branch uploads token caller canManage numChannels idx false).1
      token = some up ∧
    post_branch uploads token caller canManage numChannels idx true =
      (alist_erase uploads token, PostOutcome.posted) ∧
    alist_lookup (post_branch uploads token caller canManage numChannels idx true).1
      token = none ∧
    alist_lookup (cancel_branch uploads token caller canManage).1 token = none ∧
    alist_lookup (postall_branch uploads token caller canManage sendResults).1 token = none := by
  have hi : ¬ (idx < 1 ∨ idx > (numChannels : Int)) := by omega
  rcases hauth with h | h <;>
    refine ⟨?_, ?_, ?_, ?_, ?_, ?_⟩ <;>
      simp [post_branch, cancel_branch, postall_branch, hses, hi, h,
        alist_lookup_erase_self]

/-- Witness for C10: uploader 5's session survives a failed single-target
send but is gone after a successful one, a cancel, or a broadcast with a
partly failing target list. -/
theorem post_session_lifecycle_witness :
    alist_lookup [("t1", UploadRow.mk 5 "th")] "t1" = some (UploadRow.mk 5 "th") ∧
    post_branch [("t1", UploadRow.mk 5 "th")] "t1" 5 false 1 1 false =
      ([("t1", UploadRow.mk 5 "th")], PostOutcome.sendFailed) ∧
    alist_lookup (post_branch [("t1", UploadRow.mk 5 "th")] "t1" 5 false 1 1 true).1
      "t1" = none ∧
    alist_lookup (postall_branch [("t1", UploadRow.mk 5 "th")] "t1" 5 false
      [true, false, true]).1 "t1" = none :=
  have h : alist_lookup [("t1", UploadRow.mk 5 "th")] "t1" = some (UploadRow.mk 5 "th") := by
    simp [alist_lookup]
  have hs := post_session_lifecycle [("t1", UploadRow.mk 5 "th")] "t1" 5 false 1 1
    [true, false, true] (UploadRow.mk 5 "th") h (Or.inl rfl) (by decide) (by decide)
  ⟨h, hs.1, hs.2.2.2.1, hs.2.2.2.2.2⟩

end Fsubmul
